import Mathlib

/-
Verification of the TInstaller update-orchestration engine (server.py).

Shallow embedding of the core of server.py: version parsing and comparison
(parse_version, compare_versions, lines 103-130), the version-extraction
sentinel (parse_version_from_apk, lines 133-147), the catalog store
(save_apps, lines 163-176), source resolution (get_download_url, lines
183-281), the scheduled publish pipeline (update_single_app, lines 284-393),
the interactive publish decision (process_updateapp_file, lines 1640-1704),
fuzzy filename matching (find_app_by_filename, lines 1911-1927) and
installed-version lookup (get_installed_version, lines 1939-1953).

Python strings are modelled as Lean String / List Char.  Python regex
character classes [a-zA-Z] and \d are modelled over their ASCII meaning
(Char.isAlpha / Char.isDigit), which covers every version string the
system manipulates.  Blocking I/O (HTTP download, subprocess calls) is
modelled by passing the collaborator's result as an explicit argument.
-/

namespace TInstaller

/-! ## Version model: parse_version and compare_versions (server.py 103-130) -/

/-- The sentinel returned by parse_version_from_apk when no versionName can be
extracted (Russian for "unknown", server.py line 147). -/
def sentinel : String := "неизвестно"

/-- Maximal runs of characters satisfying keep, in order; models re.findall
of a one-class-plus pattern.  cur accumulates the current run reversed. -/
def runsAux (keep : Char → Bool) : List Char → List Char → List (List Char)
  | [], cur => if cur.isEmpty then [] else [cur.reverse]
  | c :: rest, cur =>
    if keep c then runsAux keep rest (c :: cur)
    else if cur.isEmpty then runsAux keep rest cur
    else cur.reverse :: runsAux keep rest []

def runs (keep : Char → Bool) (cs : List Char) : List (List Char) :=
  runsAux keep cs []

/-- Decimal value of a digit run; models Python int() on a \d+ match. -/
def runToNat (cs : List Char) : Nat :=
  cs.foldl (fun n c => 10 * n + (c.toNat - 48)) 0

/-- Models re.sub of an anchored letters-then-optional-dot pattern with the
empty string: the one match sits at position 0 (greedy letters, then one
dot when it immediately follows). -/
def stripAlphaDotHead (cs : List Char) : List Char :=
  match cs.dropWhile Char.isAlpha with
  | '.' :: rest => rest
  | l => l

/-- server.py 103-115: empty input gives [0]; otherwise strip the leading
letters-plus-optional-dot token, collect all maximal digit runs, convert each
to an integer; no runs gives [0].  Python tuples become Lean lists. -/
def parse_version (s : String) : List Nat :=
  if s = "" then [0]
  else
    let parts := runs Char.isDigit (stripAlphaDotHead s.data)
    if parts.isEmpty then [0] else parts.map runToNat

/-- Python tuple < on integer tuples: lexicographic, a shorter tuple that is
a proper initial segment compares lower. -/
def tupleLt : List Nat → List Nat → Bool
  | [], [] => false
  | [], _ :: _ => true
  | _ :: _, [] => false
  | a :: as, b :: bs =>
    if a < b then true else if b < a then false else tupleLt as bs

/-- server.py 118-130: -1 when v1 parses below v2, 1 when above, else 0. -/
def compare_versions (v1 v2 : String) : Int :=
  let t1 := parse_version v1
  let t2 := parse_version v2
  if tupleLt t1 t2 then -1 else if tupleLt t2 t1 then 1 else 0

/-! ## The version-extraction failure sentinel (server.py 133-147) -/

/-- server.py 133-147: aapt is invoked on the staged file; the captured
versionName (some v) or the absence of a match / a subprocess error (none)
is passed in as extracted; the sentinel is returned in the failure case. -/
def parse_version_from_apk (extracted : Option String) : String :=
  extracted.getD sentinel

/-! ## Data model: one catalog entry (AppRecord, spec section 3) -/

/-- One entry of apps.json.  Fields are Option String: none models an
absent JSON key, matching the pervasive dict.get(key, default) accesses
in server.py; each embedded function applies the exact default used at
its source line. -/
structure AppRecord where
  title : Option String
  description : Option String
  url : Option String
  sourceMethod : Option String
  sourceUpdate : Option String
  sourceFilter : Option String
  category : Option String
  ver : Option String
  lastUpdated : Option String
deriving DecidableEq

/-- A convenient all-absent record for concrete counterexamples. -/
def emptyRecord : AppRecord :=
  ⟨none, none, none, none, none, none, none, none, none⟩

/-! ## The scheduled publish pipeline (update_single_app, server.py 284-393) -/

/-- server.py 345-358: the version the scheduled pipeline compares the
candidate against: old_ver = app.get("ver", ""), displayed as the sentinel
when empty.  The installed file is consulted for its hash only, never for
its own extracted version. -/
def scheduled_old_version (app : AppRecord) : String :=
  let oldVer := app.ver.getD ""
  if oldVer = "" then sentinel else oldVer

inductive UpdateOutcome where
  | skippedHashMatch
  | skippedDowngrade
  | skippedRebuild
  | updated
deriving DecidableEq

/-- Observable effects of one update_single_app invocation from the point
where the candidate is staged: its return value, whether the installed file
was replaced (shutil.move), whether save_apps wrote the catalog, the ver
and lastUpdated fields of the record as persisted, and whether a success
notification was sent. -/
structure UpdateEffects where
  result : Bool
  fileReplaced : Bool
  catalogSaved : Bool
  recordVer : Option String
  recordLastUpdated : Option String
  notified : Bool
  outcome : UpdateOutcome
deriving DecidableEq

/-- Effects of the replace branch, server.py 366-385: move the staged file,
set ver and lastUpdated, save_apps, notify, return True. -/
def updatedEffects (newVer timestamp : String) : UpdateEffects :=
  ⟨true, true, true, some newVer, some timestamp, true, .updated⟩

/-- Effects of every skip branch: file untouched, no save, no notification,
return False; the record keeps its fields. -/
def skippedEffects (app : AppRecord) (o : UpdateOutcome) : UpdateEffects :=
  ⟨false, false, false, app.ver, app.lastUpdated, false, o⟩

/-- server.py 336-385, the publish decision of the scheduled pipeline once
the candidate is downloaded and its version extracted.  installedHash is
the SHA-256 of the file at the canonical path (none when absent),
stagedHash the SHA-256 of the staged candidate, newVer the candidate's
extracted version, timestamp the UTC now string. -/
def update_single_app_decision (app : AppRecord) (installedHash : Option String)
    (stagedHash newVer timestamp : String) : UpdateEffects :=
  match installedHash with
  | some oldHash =>
    if stagedHash = oldHash then skippedEffects app .skippedHashMatch
    else
      let c := compare_versions newVer (scheduled_old_version app)
      if c = -1 then skippedEffects app .skippedDowngrade
      else if c = 0 then skippedEffects app .skippedRebuild
      else updatedEffects newVer timestamp
  | none => updatedEffects newVer timestamp

/-! ## Installed-version lookup and the interactive publish decision
(get_installed_version, server.py 1939-1953; process_updateapp_file,
server.py 1640-1704) -/

/-- server.py 1939-1953: when the installed file exists, extract its version
with aapt and return it unless extraction failed; otherwise fall back to the
catalog's ver field with the sentinel as default.  installedFile is none
when no file sits at the canonical path, some extracted when it does, with
extracted the aapt result exactly as given to parse_version_from_apk. -/
def get_installed_version (app : AppRecord)
    (installedFile : Option (Option String)) : String :=
  match installedFile with
  | some extracted =>
    let version := parse_version_from_apk extracted
    if version ≠ sentinel then version else app.ver.getD sentinel
  | none => app.ver.getD sentinel

inductive InteractiveDecision where
  | askConfirmEqual
  | askConfirmLower
  | updateNow
deriving DecidableEq

/-- server.py 1664-1698: the interactive pipeline compares the staged
candidate's version against get_installed_version; a non-positive
comparison surfaces a yes/no confirmation instead of updating. -/
def process_updateapp_file_decision (app : AppRecord)
    (installedFile : Option (Option String)) (newVer : String) :
    InteractiveDecision :=
  let oldVersion := get_installed_version app installedFile
  let c := compare_versions newVer oldVersion
  if c = 0 then .askConfirmEqual
  else if c = -1 then .askConfirmLower
  else .updateNow

/-! ## The catalog store (load_apps / save_apps, server.py 163-176) -/

/-- The sort key of save_apps: x.get("title", "").lower().  Python str.lower
is modelled by String.toLower (ASCII lowering; catalog titles are validated
against [a-zA-Z0-9_-]+ at entry, server.py 809). -/
def save_key (a : AppRecord) : String := (a.title.getD "").toLower

/-- The comparison sorted() uses on the keys. -/
def titleLe (a b : AppRecord) : Bool := save_key a ≤ save_key b

/-- server.py 169-176: save_apps re-sorts the apps list by lowercase title
before serializing.  Python sorted() is a stable sort; List.mergeSort is
the stable sort of the Lean library.  The function returns the persisted
form of the list. -/
def save_apps (apps : List AppRecord) : List AppRecord :=
  apps.mergeSort titleLe

/-- server.py 163-166: load_apps returns the persisted document as is. -/
def load_apps (persisted : List AppRecord) : List AppRecord := persisted

/-! ## Source resolution (get_download_url, server.py 183-281) -/

/-- The characters Python str.strip() removes (ASCII whitespace). -/
def isPyWhitespace (c : Char) : Bool :=
  c = ' ' || c = '\t' || c = '\n' || c = '\r' || c = '\x0b' || c = '\x0c'

/-- Python str.strip(): remove leading and trailing whitespace. -/
def pyStripChars (cs : List Char) : List Char :=
  ((cs.dropWhile isPyWhitespace).reverse.dropWhile isPyWhitespace).reverse

/-- Python s.split(a-newline)[0]: everything before the first newline. -/
def firstLineChars (cs : List Char) : List Char :=
  cs.takeWhile (fun c => c ≠ '\n')

def pyFirstLine (s : String) : String := ⟨firstLineChars s.data⟩

/-- url.startswith two-scheme check of server.py 264 and the wizard URL
validations; structural on the character list. -/
def startsWithHTTPChars (cs : List Char) : Bool :=
  "http://".data.isPrefixOf cs || "https://".data.isPrefixOf cs

/-- server.py 239-276, the custom branch: requires a non-empty
sourceUpdate, runs it as a shell command (cmdOutput is the captured stdout,
none on timeout or subprocess error), strips the whole stdout, takes the
first line of the stripped text, and succeeds only when that line is
non-empty and starts with an http or https scheme. -/
def custom_resolve (sourceUpdate : String) (cmdOutput : Option String) :
    Option String :=
  if sourceUpdate = "" then none
  else
    match cmdOutput with
    | none => none
    | some out =>
      let stdout := pyStripChars out.data
      let url := if stdout.isEmpty then [] else firstLineChars stdout
      if !url.isEmpty && startsWithHTTPChars url then some ⟨url⟩ else none

/-- server.py 183-281.  The two release branches perform an HTTP GET and
scan the JSON asset list for the first name matching the regex filter;
that collaborator interaction is abstracted as apiAsset (none on request
failure or no matching asset), guarded by the mandatory non-empty
sourceFilter exactly as in the source.  sourceMethod defaults to "direct"
when absent; any other method resolves to None. -/
def get_download_url (app : AppRecord) (apiAsset : Option String)
    (cmdOutput : Option String) : Option String :=
  let sourceUpdate := app.sourceUpdate.getD ""
  let sourceMethod := app.sourceMethod.getD "direct"
  let sourceFilter := app.sourceFilter.getD ""
  if sourceMethod = "direct" then some sourceUpdate
  else if sourceMethod = "github_release" then
    if sourceFilter = "" then none else apiAsset
  else if sourceMethod = "gitlab_release" then
    if sourceFilter = "" then none else apiAsset
  else if sourceMethod = "custom" then custom_resolve sourceUpdate cmdOutput
  else none

/-! ## Fuzzy filename matching (find_app_by_filename, server.py 1911-1927) -/

/-- filename.rsplit of one dot, first component: everything before the
last dot. -/
def stemBeforeLastDot (cs : List Char) : List Char :=
  ((cs.reverse.dropWhile (fun c => c ≠ '.')).tail).reverse

/-- server.py 1913-1914: strip the last extension when a dot is present,
replace underscore and hyphen by spaces, lowercase. -/
def normalize_filename (filename : String) : List Char :=
  let cs := filename.data
  let stem := if cs.contains '.' then stemBeforeLastDot cs else cs
  (stem.map (fun c => if c = '_' || c = '-' then ' ' else c)).map Char.toLower

/-- Python substring membership: needle in hay. -/
def containsSub : List Char → List Char → Bool
  | [], needle => needle.isEmpty
  | c :: rest, needle => needle.isPrefixOf (c :: rest) || containsSub rest needle

/-- Python str.split() with no separator: maximal non-whitespace runs. -/
def pyWords (cs : List Char) : List (List Char) :=
  runs (fun c => !isPyWhitespace c) cs

/-- app.get("title", "").lower() as a character list. -/
def lowerTitle (app : AppRecord) : List Char :=
  (app.title.getD "").data.map Char.toLower

/-- server.py 1917-1925: an entry matches when the lowercased title is a
substring of the normalized name, or the normalized name a substring of the
title, or their word sets intersect. -/
def app_matches (normalized : List Char) (app : AppRecord) : Bool :=
  let title := lowerTitle app
  containsSub normalized title || containsSub title normalized ||
    (pyWords title).any (fun w => (pyWords normalized).any (fun w2 => w = w2))

/-- server.py 1911-1927: indices of the matching entries, in catalog
order. -/
def find_app_by_filename (filename : String) (apps : List AppRecord) :
    List Nat :=
  let normalized := normalize_filename filename
  (apps.enum.filter (fun p => app_matches normalized p.2)).map (fun p => p.1)

/-! ## Staging-directory lifecycle (update_single_app, server.py 314-393;
addapp_handle_input step 1, server.py 680-798) -/

inductive SchedExit where
  | downloadFailed
  | emptyFile
  | hashMatch
  | downgrade
  | rebuild
  | updated
deriving DecidableEq

/-- server.py 314-393 from the point mkdtemp created the staging directory:
which exit path the invocation takes and whether the directory was removed
before returning.  The try/finally of lines 318-393 runs
shutil.rmtree(temp_dir) on every path. -/
def update_single_app_run (downloadOk nonEmptyFile : Bool) (app : AppRecord)
    (installedHash : Option String) (stagedHash newVer ts : String) :
    SchedExit × Bool :=
  if !downloadOk then (.downloadFailed, true)
  else if !nonEmptyFile then (.emptyFile, true)
  else
    let e := update_single_app_decision app installedHash stagedHash newVer ts
    match e.outcome with
    | .skippedHashMatch => (.hashMatch, true)
    | .skippedDowngrade => (.downgrade, true)
    | .skippedRebuild => (.rebuild, true)
    | .updated => (.updated, true)

/-- Input to step 1 of the add-app wizard: a Telegram document (with its
filename, size in bytes and whether the transfer from Telegram succeeds),
a text message (whether its stripped form is downloadable and the download
yields a non-empty file), or anything else. -/
inductive AddAppStep1Input where
  | document (fileName : String) (fileSize : Nat) (downloadOk : Bool)
  | text (msg : String) (downloadOk : Bool) (nonEmptyFile : Bool)
  | other
deriving DecidableEq

/-- Observable staging effects of one step-1 invocation. -/
structure Step1Effects where
  tempDirCreated : Bool
  tempDirRemoved : Bool
  stagedKeptInSession : Bool
  sessionCleared : Bool
  advancedToStep2 : Bool
deriving DecidableEq

/-- Step stays where it is, nothing staged (re-prompt). -/
def step1NoStaging : Step1Effects := ⟨false, false, false, false, false⟩

/-- server.py 680-798, step 1 of the add-app wizard.  Document path
(lines 682-735): non-apk name or oversize re-prompts; a successful
download stores temp_apk_path in the session and advances to step 2
without removing the directory; a failed download clears the session
without removing the directory.  Text path (lines 738-795): a non-HTTP
message re-prompts; a failed or empty download removes the directory and
clears the session; success stores the path and advances. -/
def addapp_step1 (input : AddAppStep1Input) : Step1Effects :=
  match input with
  | .document fileName fileSize downloadOk =>
    if !(".apk".data.isSuffixOf (fileName.data.map Char.toLower)) then
      step1NoStaging
    else if 50 * 1024 * 1024 < fileSize then step1NoStaging
    else if downloadOk then ⟨true, false, true, false, true⟩
    else ⟨true, false, false, true, false⟩
  | .text msg downloadOk nonEmptyFile =>
    if !startsWithHTTPChars (pyStripChars msg.data) then step1NoStaging
    else if !downloadOk then ⟨true, true, false, true, false⟩
    else if !nonEmptyFile then ⟨true, true, false, true, false⟩
    else ⟨true, false, true, false, true⟩
  | .other => step1NoStaging

/-! ## Catalog writers under concurrency (server.py 396-432 with 163-176
and 968-1016) -/

/-
server.py acquires no lock anywhere: update_all_apps loads the catalog
once (line 404), each update_single_app then awaits a network download
before mutating its in-memory snapshot and calling save_apps (lines
372-375), while finalize_addapp runs load-append-save synchronously
(lines 993-995).  The asyncio event loop may run the wizard finalize
during the sweep's download await, between the sweep's load and its save.
The model below makes load and save atomic events over the persisted
document and executes an explicit interleaving.
-/

/-- The persisted document plus each writer's in-memory snapshot; a
catalog entry is reduced to its title and ver. -/
structure RaceState where
  persisted : List (String × String)
  sweepView : Option (List (String × String))
  wizardView : Option (List (String × String))
deriving DecidableEq

inductive RaceEv where
  | sweepLoad
  | sweepSave
  | wizardLoad
  | wizardSave
deriving DecidableEq

/-- The sweep's mutation of its snapshot (update_single_app lines 372-373):
set the ver of entry "A" to "2". -/
def sweepMutate (c : List (String × String)) : List (String × String) :=
  c.map (fun p => if p.1 = "A" then (p.1, "2") else p)

/-- The wizard finalize's mutation (finalize_addapp line 994): append the
new record "B". -/
def wizardMutate (c : List (String × String)) : List (String × String) :=
  c ++ [("B", "1")]

/-- One atomic event: a load copies the persisted document into the
writer's view; a save runs the writer's mutation on its view and writes
the result back, exactly the load-mutate-save structure of the source. -/
def raceStep (st : RaceState) (e : RaceEv) : RaceState :=
  match e with
  | .sweepLoad => { st with sweepView := some st.persisted }
  | .sweepSave =>
    match st.sweepView with
    | some d => { st with persisted := sweepMutate d }
    | none => st
  | .wizardLoad => { st with wizardView := some st.persisted }
  | .wizardSave =>
    match st.wizardView with
    | some d => { st with persisted := wizardMutate d }
    | none => st

def raceRun (init : List (String × String)) (sched : List RaceEv) :
    RaceState :=
  sched.foldl raceStep ⟨init, none, none⟩

/-- The interleaving the event loop can produce: the sweep loads, the
wizard finalize runs completely during the sweep's download await, then
the sweep saves its stale snapshot. -/
def lostUpdateSchedule : List RaceEv :=
  [.sweepLoad, .wizardLoad, .wizardSave, .sweepSave]

theorem tupleLt_irrefl : ∀ t : List Nat, tupleLt t t = false
  | [] => rfl
  | a :: as => by simp [tupleLt, tupleLt_irrefl as]

theorem tupleLt_cons_iff {a b : Nat} {as bs : List Nat} :
    tupleLt (a :: as) (b :: bs) = true ↔
      a < b ∨ (a = b ∧ tupleLt as bs = true) := by
  by_cases h : a < b
  · simp [tupleLt, h]
  · by_cases h' : b < a
    · have hne : ¬ a = b := by omega
      simp [tupleLt, h, h', hne]
    · have heq : a = b := by omega
      simp [tupleLt, h, h', heq]

theorem tupleLt_asymm : ∀ {s t : List Nat},
    tupleLt s t = true → tupleLt t s = false
  | [], [], h => by simp [tupleLt] at h
  | [], _ :: _, _ => rfl
  | _ :: _, [], h => by simp [tupleLt] at h
  | a :: as, b :: bs, h => by
    rcases tupleLt_cons_iff.mp h with hab | ⟨rfl, hrec⟩
    · have : ¬ b < a := by omega
      simp [tupleLt, this, hab]
    · have := tupleLt_asymm hrec
      simp [tupleLt, this]

theorem tupleLt_trans : ∀ {s t u : List Nat},
    tupleLt s t = true → tupleLt t u = true → tupleLt s u = true
  | [], [], _, h, _ => by simp [tupleLt] at h
  | [], _ :: _, [], _, h => by simp [tupleLt] at h
  | [], _ :: _, _ :: _, _, _ => rfl
  | _ :: _, [], _, h, _ => by simp [tupleLt] at h
  | _ :: _, _ :: _, [], _, h => by simp [tupleLt] at h
  | a :: as, b :: bs, c :: cs, h₁, h₂ => by
    rcases tupleLt_cons_iff.mp h₁ with hab | ⟨rfl, hr₁⟩ <;>
      rcases tupleLt_cons_iff.mp h₂ with hbc | ⟨rfl, hr₂⟩
    · exact tupleLt_cons_iff.mpr (Or.inl (by omega))
    · exact tupleLt_cons_iff.mpr (Or.inl hab)
    · exact tupleLt_cons_iff.mpr (Or.inl hbc)
    · exact tupleLt_cons_iff.mpr (Or.inr ⟨rfl, tupleLt_trans hr₁ hr₂⟩)

theorem compare_versions_self (a : String) : compare_versions a a = 0 := by
  simp [compare_versions, tupleLt_irrefl]

theorem compare_versions_antisymm (a b : String) :
    compare_versions a b = - compare_versions b a := by
  unfold compare_versions
  by_cases h : tupleLt (parse_version a) (parse_version b) = true
  · simp [h, tupleLt_asymm h]
  · by_cases h' : tupleLt (parse_version b) (parse_version a) = true
    · simp [h, h', tupleLt_asymm h']
    · simp [h, h']

theorem compare_versions_eq_one_iff {a b : String} :
    compare_versions a b = 1 ↔
      tupleLt (parse_version b) (parse_version a) = true := by
  unfold compare_versions
  by_cases h : tupleLt (parse_version a) (parse_version b) = true
  · simp [h, tupleLt_asymm h]
  · by_cases h' : tupleLt (parse_version b) (parse_version a) = true <;> simp [h, h']

theorem compare_versions_trans {a b c : String}
    (h₁ : compare_versions a b = 1) (h₂ : compare_versions b c = 1) :
    compare_versions a c = 1 :=
  compare_versions_eq_one_iff.mpr
    (tupleLt_trans (compare_versions_eq_one_iff.mp h₂)
      (compare_versions_eq_one_iff.mp h₁))

theorem compare_versions_vals (a b : String) :
    compare_versions a b = -1 ∨ compare_versions a b = 0 ∨
      compare_versions a b = 1 := by
  unfold compare_versions
  by_cases h : tupleLt (parse_version a) (parse_version b) = true
  · simp [h]
  · by_cases h' : tupleLt (parse_version b) (parse_version a) = true <;> simp [h, h']

/-- C4: compare_versions is a total preorder agreeing with lexicographic
tuple order: it is reflexive (compare a a = 0), antisymmetric
(compare a b = -compare b a), transitive on the strict part, and compares
components numerically, so compare "1.10.0" "1.9.0" = 1. -/
theorem C4_compare_versions_preorder :
    (∀ a : String, compare_versions a a = 0) ∧
    (∀ a b : String, compare_versions a b = - compare_versions b a) ∧
    (∀ a b c : String, compare_versions a b = 1 → compare_versions b c = 1 →
      compare_versions a c = 1) ∧
    compare_versions "1.10.0" "1.9.0" = 1 :=
  ⟨compare_versions_self, compare_versions_antisymm,
    fun _ _ _ h₁ h₂ => compare_versions_trans h₁ h₂, by decide⟩

/-- Witness for C4: the transitivity hypothesis discharged at 3 > 2 > 1. -/
theorem C4_compare_versions_preorder_witness :
    compare_versions "3" "1" = 1 :=
  C4_compare_versions_preorder.2.2.1 "3" "2" "1" (by decide) (by decide)

theorem parse_version_ne_nil (s : String) : parse_version s ≠ [] := by
  unfold parse_version
  by_cases h : s = ""
  · simp [h]
  · simp only [h, if_false]
    by_cases h' : (runs Char.isDigit (stripAlphaDotHead s.data)).isEmpty <;>
      simp_all [List.isEmpty_iff]

theorem tupleLt_zero_right : ∀ {t : List Nat}, t ≠ [] → tupleLt t [0] = false
  | [], h => absurd rfl h
  | a :: as, _ => by
    rcases Nat.eq_zero_or_pos a with rfl | ha
    · cases as <;> simp [tupleLt]
    · have : ¬ a < 0 := by omega
      have hne : a ≠ 0 := by omega
      simp [tupleLt, this, ha]

/-- C6: the extraction-failure sentinel parses to [0], the minimum of the
tuple order over all parse_version outputs, so a comparison with the
sentinel on the left never returns 1: an unextractable version is treated
as the lowest possible version. -/
theorem C6_sentinel_is_minimum :
    parse_version sentinel = [0] ∧
    parse_version_from_apk none = sentinel ∧
    (∀ s : String, tupleLt (parse_version s) (parse_version sentinel) = false) ∧
    (∀ s : String, compare_versions sentinel s = -1 ∨
      compare_versions sentinel s = 0) := by
  have hpar : parse_version sentinel = [0] := by decide
  refine ⟨hpar, rfl, ?_, ?_⟩
  · intro s
    rw [hpar]
    exact tupleLt_zero_right (parse_version_ne_nil s)
  · intro s
    unfold compare_versions
    by_cases h : tupleLt (parse_version sentinel) (parse_version s) = true
    · simp [h]
    · have h' : tupleLt (parse_version s) (parse_version sentinel) = false := by
        rw [hpar]; exact tupleLt_zero_right (parse_version_ne_nil s)
      simp [h, h']

/-- C1: the publish decision table of update_single_app.  Equal digests give
Skipped(hash-match) with no catalog write and no notification regardless of
versions; differing digests with a strictly lower candidate give
Skipped(downgrade) with file and catalog unchanged; equal versions with
differing digests give Skipped(rebuild) unchanged; and the file is replaced
with ver and lastUpdated saved exactly when the candidate compares strictly
higher or no installed file exists. -/
theorem C1_publish_decision_table :
    (∀ app h newVer ts, update_single_app_decision app (some h) h newVer ts =
      skippedEffects app .skippedHashMatch) ∧
    (∀ app h hs newVer ts, hs ≠ h →
      compare_versions newVer (scheduled_old_version app) = -1 →
      update_single_app_decision app (some h) hs newVer ts =
        skippedEffects app .skippedDowngrade) ∧
    (∀ app h hs newVer ts, hs ≠ h →
      compare_versions newVer (scheduled_old_version app) = 0 →
      update_single_app_decision app (some h) hs newVer ts =
        skippedEffects app .skippedRebuild) ∧
    (∀ app h hs newVer ts, hs ≠ h →
      compare_versions newVer (scheduled_old_version app) = 1 →
      update_single_app_decision app (some h) hs newVer ts =
        updatedEffects newVer ts) ∧
    (∀ app newVer ts, update_single_app_decision app none "" newVer ts =
      updatedEffects newVer ts) ∧
    (∀ app ih hs newVer ts,
      (update_single_app_decision app ih hs newVer ts).fileReplaced = true ↔
      (ih = none ∨ ∃ h, ih = some h ∧ hs ≠ h ∧
        compare_versions newVer (scheduled_old_version app) = 1)) := by
  refine ⟨?_, ?_, ?_, ?_, ?_, ?_⟩
  · intro app h newVer ts
    simp [update_single_app_decision]
  · intro app h hs newVer ts hne hc
    simp [update_single_app_decision, hne, hc]
  · intro app h hs newVer ts hne hc
    simp [update_single_app_decision, hne, hc]
  · intro app h hs newVer ts hne hc
    simp [update_single_app_decision, hne, hc]
  · intro app newVer ts
    simp [update_single_app_decision]
  · intro app ih hs newVer ts
    cases ih with
    | none => simp [update_single_app_decision, updatedEffects]
    | some h =>
      by_cases hne : hs = h
      · subst hne
        simp [update_single_app_decision, skippedEffects]
      · by_cases hc1 : compare_versions newVer (scheduled_old_version app) = -1
        · simp [update_single_app_decision, hne, hc1, skippedEffects]
        · by_cases hc0 : compare_versions newVer (scheduled_old_version app) = 0
          · simp [update_single_app_decision, hne, hc1, hc0, skippedEffects]
          · have hc : compare_versions newVer (scheduled_old_version app) = 1 := by
              rcases compare_versions_vals newVer (scheduled_old_version app) with
                h' | h' | h' <;> simp_all
            simp [update_single_app_decision, hne, hc1, hc0, hc, updatedEffects]

/-- Witness for C1: the hypotheses discharged on a concrete record with
ver "1.0", differing hashes and candidate "2.0". -/
theorem C1_publish_decision_table_witness :
    update_single_app_decision { emptyRecord with ver := some "1.0" }
      (some "hashA") "hashB" "2.0" "2024-01-01T00:00:00Z" =
      updatedEffects "2.0" "2024-01-01T00:00:00Z" :=
  C1_publish_decision_table.2.2.2.1 { emptyRecord with ver := some "1.0" }
    "hashA" "hashB" "2.0" "2024-01-01T00:00:00Z" (by decide) (by decide)

/-- C3 counterexample: a record whose catalog ver is "1.0" while the
installed file's own extracted version is "2.0".  The scheduled pipeline
compares against "1.0" (the catalog field), not "2.0": with candidate
"1.5" it proceeds to replace, where a comparison against the installed
file's extracted version (as the claim states for every invocation) would
classify the candidate as a downgrade. -/
theorem C3_scheduled_ignores_installed_file_version :
    scheduled_old_version { emptyRecord with ver := some "1.0" } = "1.0" ∧
    get_installed_version { emptyRecord with ver := some "1.0" }
      (some (some "2.0")) = "2.0" ∧
    (update_single_app_decision { emptyRecord with ver := some "1.0" }
      (some "hashA") "hashB" "1.5" "t").outcome = .updated ∧
    compare_versions "1.5" "2.0" = -1 := by
  refine ⟨by decide, by decide, ?_, by decide⟩
  have h1 : compare_versions "1.5"
      (scheduled_old_version { emptyRecord with ver := some "1.0" }) = 1 := by
    decide
  simp [update_single_app_decision, h1, updatedEffects, skippedEffects]

/-- C3 amended: only the interactive pipeline compares against the
installed file's extracted version (falling back to the catalog ver when
the file is absent or extraction fails); the scheduled pipeline always
compares against the catalog record's ver field, displayed as the sentinel
when empty or absent. -/
theorem C3_comparison_bases :
    (∀ app extracted newVer, extracted ≠ sentinel →
      (process_updateapp_file_decision app (some (some extracted)) newVer =
          .updateNow ↔
        compare_versions newVer extracted = 1)) ∧
    (∀ app, get_installed_version app none = app.ver.getD sentinel) ∧
    (∀ app, get_installed_version app (some none) = app.ver.getD sentinel) ∧
    (∀ app h hs newVer ts,
      (update_single_app_decision app (some h) hs newVer ts).outcome =
          .updated ↔
        (hs ≠ h ∧ compare_versions newVer (scheduled_old_version app) = 1)) := by
  refine ⟨?_, fun _ => rfl, ?_, ?_⟩
  · intro app extracted newVer hne
    have hbase : get_installed_version app (some (some extracted)) = extracted := by
      simp [get_installed_version, parse_version_from_apk, hne]
    rcases compare_versions_vals newVer extracted with h' | h' | h' <;>
      simp [process_updateapp_file_decision, hbase, h']
  · intro app
    simp [get_installed_version, parse_version_from_apk]
  · intro app h hs newVer ts
    by_cases hne : hs = h
    · subst hne
      simp [update_single_app_decision, skippedEffects]
    · rcases compare_versions_vals newVer (scheduled_old_version app) with
        h' | h' | h' <;>
      simp [update_single_app_decision, hne, h', skippedEffects, updatedEffects]

/-- Witness for C3 amended: hypotheses discharged for extracted version
"2.0" and candidate "3.0". -/
theorem C3_comparison_bases_witness :
    process_updateapp_file_decision emptyRecord (some (some "2.0")) "3.0" =
      .updateNow :=
  (C3_comparison_bases.1 emptyRecord "2.0" "3.0" (by decide)).mpr (by decide)

theorem titleLe_trans : ∀ a b c : AppRecord,
    titleLe a b → titleLe b c → titleLe a c := by
  intro a b c hab hbc
  simp only [titleLe, decide_eq_true_eq] at *
  exact le_trans hab hbc

theorem titleLe_total : ∀ a b : AppRecord, titleLe a b || titleLe b a := by
  intro a b
  simp only [titleLe, Bool.or_eq_true, decide_eq_true_eq]
  exact le_total _ _

/-- C5: save_apps sorts every input catalog by lowercase title (the output
is title-sorted and a permutation of the input, so no entry is lost), and
the save-load round trip is idempotent: saving, loading and saving again
yields the identical persisted document. -/
theorem C5_save_sorted_and_idempotent :
    (∀ apps : List AppRecord, (save_apps apps).Pairwise (titleLe · ·)) ∧
    (∀ apps : List AppRecord, List.Perm (save_apps apps) apps) ∧
    (∀ apps : List AppRecord,
      save_apps (load_apps (save_apps apps)) = save_apps apps) := by
  refine ⟨?_, ?_, ?_⟩
  · intro apps
    exact List.sorted_mergeSort titleLe_trans titleLe_total apps
  · intro apps
    exact List.mergeSort_perm apps titleLe
  · intro apps
    exact List.mergeSort_of_sorted
      (List.sorted_mergeSort titleLe_trans titleLe_total apps)

/-- C7 counterexample: a custom command whose raw stdout is a newline
followed by a URL.  The first line of the standard output is empty and
starts with no http scheme, so the claim requires a resolution failure;
the code strips the stdout before splitting and succeeds, returning the
URL from the second raw line. -/
theorem C7_counterexample :
    get_download_url
      { emptyRecord with
          sourceMethod := some "custom", sourceUpdate := some "mycmd" }
      none (some "\nhttps://a.example/x.apk") =
      some "https://a.example/x.apk" ∧
    pyFirstLine "\nhttps://a.example/x.apk" = "" ∧
    startsWithHTTPChars ("" : String).data = false := by
  refine ⟨?_, by decide, by decide⟩
  decide

/-- C7 amended: for a custom entry with non-empty sourceUpdate, resolution
returns a URL exactly when the command ran to completion and the first
line of the whitespace-stripped standard output starts with an http or
https scheme, and the returned URL is exactly that line; an empty
sourceUpdate, a timeout, an empty stripped output or a non-HTTP first line
fail; and every sourceMethod outside direct, github_release,
gitlab_release, custom resolves to None. -/
theorem C7_custom_resolution :
    (∀ (su : String) (cmd : Option String) (u : String), su ≠ "" →
      (custom_resolve su cmd = some u ↔
        ∃ out, cmd = some out ∧ pyStripChars out.data ≠ [] ∧
          u.data = firstLineChars (pyStripChars out.data) ∧
          startsWithHTTPChars u.data = true)) ∧
    (∀ cmd : Option String, custom_resolve "" cmd = none) ∧
    (∀ (app : AppRecord) (apiAsset cmdOutput : Option String),
      app.sourceMethod.getD "direct" ≠ "direct" →
      app.sourceMethod.getD "direct" ≠ "github_release" →
      app.sourceMethod.getD "direct" ≠ "gitlab_release" →
      app.sourceMethod.getD "direct" ≠ "custom" →
      get_download_url app apiAsset cmdOutput = none) := by
  refine ⟨?_, ?_, ?_⟩
  · intro su cmd u hsu
    unfold custom_resolve
    simp only [hsu, if_false]
    cases cmd with
    | none => simp
    | some out =>
      simp only [Option.some.injEq]
      by_cases he : (pyStripChars out.data).isEmpty
      · have he' : pyStripChars out.data = [] := List.isEmpty_iff.mp he
        simp [he, he']
      · have he' : pyStripChars out.data ≠ [] := by
          simpa [List.isEmpty_iff] using he
        simp only [he, Bool.false_eq_true, if_false]
        by_cases hs :
            startsWithHTTPChars (firstLineChars (pyStripChars out.data)) = true
        · have hne : ¬ (firstLineChars (pyStripChars out.data)).isEmpty := by
            intro h
            rw [List.isEmpty_iff] at h
            rw [h] at hs
            exact absurd hs (by decide)
          constructor
          · intro h
            rw [if_pos (by simp [hne, hs])] at h
            injection h with h'
            subst h'
            exact ⟨out, rfl, he', rfl, hs⟩
          · rintro ⟨out', hout, -, hdata, hstart⟩
            subst hout
            rw [if_pos (by simp [hne, hs])]
            cases u with
            | mk d =>
              simp only at hdata
              subst hdata
              rfl
        · rw [if_neg (by simp [hs])]
          constructor
          · intro h
            exact absurd h (by simp)
          · rintro ⟨out', hout, -, hdata, hstart⟩
            subst hout
            rw [hdata] at hstart
            exact absurd hstart hs
  · intro cmd
    simp [custom_resolve]
  · intro app apiAsset cmdOutput h1 h2 h3 h4
    simp [get_download_url, h1, h2, h3, h4]

/-- Witness for C7 amended: hypotheses discharged on a concrete command
output with surrounding whitespace. -/
theorem C7_custom_resolution_witness :
    custom_resolve "mycmd" (some "  https://b.example/y.apk\nrest\n") =
      some "https://b.example/y.apk" :=
  (C7_custom_resolution.1 "mycmd" (some "  https://b.example/y.apk\nrest\n")
      "https://b.example/y.apk" (by decide)).mpr
    ⟨"  https://b.example/y.apk\nrest\n", rfl, by decide, by decide, by decide⟩

theorem mem_find_app_iff {filename : String} {apps : List AppRecord}
    {i : Nat} :
    i ∈ find_app_by_filename filename apps ↔
      ∃ app, apps[i]? = some app ∧
        app_matches (normalize_filename filename) app = true := by
  unfold find_app_by_filename
  simp only [List.mem_map, List.mem_filter, Prod.exists]
  constructor
  · rintro ⟨j, app, ⟨henum, hm⟩, rfl⟩
    exact ⟨app, List.mk_mem_enum_iff_getElem?.mp henum, hm⟩
  · rintro ⟨app, hget, hm⟩
    exact ⟨i, app, ⟨List.mk_mem_enum_iff_getElem?.mpr hget, hm⟩, rfl⟩

/-- C8: for every filename and catalog, an index is returned exactly when
the entry exists and the lowercased title is a substring of the normalized
name, or the normalized name a substring of the title, or their whitespace
word sets intersect; "My_Cool-App-v3.apk" against titles "My Cool App" and
"Other" yields exactly the first index, and a filename matching no title
yields the empty list. -/
theorem C8_fuzzy_filename_matching :
    (∀ (filename : String) (apps : List AppRecord) (i : Nat),
      i ∈ find_app_by_filename filename apps ↔
        ∃ app, apps[i]? = some app ∧
          (containsSub (normalize_filename filename) (lowerTitle app) = true ∨
           containsSub (lowerTitle app) (normalize_filename filename) = true ∨
           ∃ w, w ∈ pyWords (lowerTitle app) ∧
             w ∈ pyWords (normalize_filename filename))) ∧
    find_app_by_filename "My_Cool-App-v3.apk"
      [{ emptyRecord with title := some "My Cool App" },
       { emptyRecord with title := some "Other" }] = [0] ∧
    find_app_by_filename "Nothing-here.apk"
      [{ emptyRecord with title := some "My Cool App" },
       { emptyRecord with title := some "Other" }] = [] := by
  refine ⟨?_, by decide, by decide⟩
  intro filename apps i
  rw [mem_find_app_iff]
  apply exists_congr
  intro app
  apply and_congr_right
  intro _
  unfold app_matches
  simp only [Bool.or_eq_true, List.any_eq_true, decide_eq_true_eq]
  constructor
  · rintro ((h | h) | ⟨w, hw, w2, hw2, rfl⟩)
    · exact Or.inl h
    · exact Or.inr (Or.inl h)
    · exact Or.inr (Or.inr ⟨w, hw, hw2⟩)
  · rintro (h | h | ⟨w, hw, hw2⟩)
    · exact Or.inl (Or.inl h)
    · exact Or.inl (Or.inr h)
    · exact Or.inr ⟨w, hw, w, hw2, rfl⟩

theorem containsSub_nil_needle : ∀ hay : List Char, containsSub hay [] = true
  | [] => rfl
  | _ :: _ => rfl

/-- C10: the empty stem is a substring of every title and the empty title a
substring of every normalized name, so a filename like ".apk" matches every
catalog entry and an empty-titled entry is matched by every filename. -/
theorem C10_empty_string_matches_everything :
    (∀ apps : List AppRecord,
      find_app_by_filename ".apk" apps = List.range apps.length) ∧
    (∀ (filename : String) (apps : List AppRecord) (i : Nat)
      (app : AppRecord), apps[i]? = some app → app.title.getD "" = "" →
      i ∈ find_app_by_filename filename apps) := by
  constructor
  · intro apps
    have hnorm : normalize_filename ".apk" = [] := by decide
    have hall : ∀ p : Nat × AppRecord, p ∈ apps.enum →
        app_matches (normalize_filename ".apk") p.2 = true := by
      intro p _
      simp [app_matches, hnorm, containsSub_nil_needle]
    simp only [find_app_by_filename]
    rw [List.filter_eq_self.mpr hall, List.enum_map_fst]
  · intro filename apps i app hget htitle
    rw [mem_find_app_iff]
    refine ⟨app, hget, ?_⟩
    have hlt : lowerTitle app = [] := by simp [lowerTitle, htitle]
    simp [app_matches, hlt, containsSub_nil_needle]

/-- Witness for C10: hypotheses discharged on a one-entry catalog with an
empty title. -/
theorem C10_empty_string_matches_everything_witness :
    0 ∈ find_app_by_filename "whatever.apk"
      [{ emptyRecord with title := some "" }] :=
  C10_empty_string_matches_everything.2 "whatever.apk"
    [{ emptyRecord with title := some "" }] 0
    { emptyRecord with title := some "" } (by decide) (by decide)

/-- C9 counterexample: a successful document upload in step 1 of the
add-app wizard returns with the staging directory still on disk (it is
kept in the session for the later steps), so a wizard download step does
not remove its staging directory before returning. -/
theorem C9_counterexample :
    (addapp_step1 (.document "app.apk" 1000 true)).tempDirCreated = true ∧
    (addapp_step1 (.document "app.apk" 1000 true)).tempDirRemoved = false := by
  decide

/-- C9 amended: the scheduled pipeline removes its staging directory before
returning on every exit path; a wizard download step that creates a staging
directory and returns without removing it either keeps the staged file
referenced in the session for the rest of the flow, or is the
document-download failure branch, which clears the session and leaks the
directory. -/
theorem C9_staging_lifecycle :
    (∀ downloadOk nonEmptyFile app installedHash stagedHash newVer ts,
      (update_single_app_run downloadOk nonEmptyFile app installedHash
        stagedHash newVer ts).2 = true) ∧
    (∀ input : AddAppStep1Input,
      (addapp_step1 input).tempDirCreated = true →
      (addapp_step1 input).tempDirRemoved = false →
      ((addapp_step1 input).stagedKeptInSession = true ∨
        ∃ fileName fileSize,
          input = .document fileName fileSize false)) := by
  constructor
  · intro downloadOk nonEmptyFile app installedHash stagedHash newVer ts
    unfold update_single_app_run
    rcases downloadOk with - | -
    · rfl
    · rcases nonEmptyFile with - | -
      · rfl
      · rcases h : (update_single_app_decision app installedHash stagedHash
            newVer ts).outcome <;> simp [h]
  · intro input
    match input with
    | .document fileName fileSize downloadOk =>
      by_cases h1 : ".apk".data.isSuffixOf (fileName.data.map Char.toLower) = true
      · by_cases h2 : 50 * 1024 * 1024 < fileSize
        · simp [addapp_step1, h1, h2, step1NoStaging]
        · rcases downloadOk with - | -
          · intro _ _
            exact Or.inr ⟨fileName, fileSize, rfl⟩
          · intro _ _
            simp [addapp_step1, h1, h2]
      · simp [addapp_step1, h1, step1NoStaging]
    | .text msg downloadOk nonEmptyFile =>
      by_cases h1 : startsWithHTTPChars (pyStripChars msg.data) = true
      · rcases downloadOk with - | - <;> rcases nonEmptyFile with - | - <;>
          simp [addapp_step1, h1]
      · simp [addapp_step1, h1, step1NoStaging]
    | .other => simp [addapp_step1, step1NoStaging]

/-- Witness for C9 amended: hypotheses discharged on a successful URL
download, which keeps the staged file in the session. -/
theorem C9_staging_lifecycle_witness :
    (addapp_step1 (.text "https://c.example/z.apk" true true)).stagedKeptInSession
        = true ∨
      ∃ fileName fileSize, (AddAppStep1Input.text "https://c.example/z.apk"
        true true) = .document fileName fileSize false :=
  C9_staging_lifecycle.2 (.text "https://c.example/z.apk" true true)
    (by decide) (by decide)

/-- C2 evaluated at the failing interleaving: both writers complete their
load-mutate-save cycles, yet the persisted catalog holds only the sweep's
mutation; the wizard's appended record "B" is lost, refuting the claim
that the store serializes writers so that both mutations survive. -/
theorem C2_lost_update :
    (raceRun [("A", "1")] lostUpdateSchedule).persisted = [("A", "2")] ∧
    ("B", "1") ∈ (raceRun [("A", "1")]
      [.sweepLoad, .wizardLoad, .wizardSave]).persisted ∧
    ("B", "1") ∉ (raceRun [("A", "1")] lostUpdateSchedule).persisted := by
  decide

end TInstaller

